import Mathlib

/-
Verification development for the go-isucon-tracer repository (package tracer).

The repository contains three variants of the same instrumentation layer:
  - src/unnamed/part_001 : the full variant (tag extraction with truncation,
    driver.ErrSkip guard, PerfHandle with a captured toFile stream, webroute log)
  - src/unnamed/part_000 : a variant without ErrSkip guard, without query
    truncation, whose PerfHandle.End reads the global performance stream
  - src/tracer.go        : an early variant whose whitespace regex collapses
    only runs of length at least two and does not include carriage return

Query strings are modelled as lists of characters.  Go slices strings by
byte; all inputs relevant here are ASCII, where byte positions and character
positions coincide, and regex match boundaries are always rune-aligned, so
the character-list model is faithful.
-/

/-- Character class of the regex [ \r\n\t] used by regexCutSpace in
part_000 and part_001 of the source. -/
def isWS (c : Char) : Bool :=
  c == ' ' || c == '\r' || c == '\n' || c == '\t'

/-- Transcription of regexCutSpace.ReplaceAllString(s, " ") from part_000 and
part_001: every leftmost maximal run of characters in [ \r\n\t] (length at
least one) is replaced by a single space.  The scan looks one character ahead:
a whitespace character followed by more whitespace belongs to a run whose
space is emitted at the run's last character. -/
def regexCutSpace : List Char → List Char
  | [] => []
  | [c] => if isWS c then [' '] else [c]
  | a :: b :: cs =>
    if isWS a then
      if isWS b then regexCutSpace (b :: cs)
      else ' ' :: regexCutSpace (b :: cs)
    else a :: regexCutSpace (b :: cs)

/-- Statement of the claim wording for the normalizer, as a single scan: every
character of a maximal whitespace run but the first is dropped, the first is
replaced by one space, and every other character is kept unchanged.  The flag
records whether the previous character was whitespace. -/
def collapseWS : Bool → List Char → List Char
  | _, [] => []
  | prevWS, c :: cs =>
    if isWS c then
      if prevWS then collapseWS true cs else ' ' :: collapseWS true cs
    else c :: collapseWS false cs

/-- Normalized query in the claim's wording: maximal whitespace runs collapsed
to single spaces, all other characters unchanged. -/
def normalizeSpec (s : List Char) : List Char :=
  collapseWS false s

/-- Character class of the regex [ \n\t] used by the variable rep in
src/tracer.go (note: no carriage return in the class). -/
def isWSGo (c : Char) : Bool :=
  c == ' ' || c == '\n' || c == '\t'

/-- Transcription of rep.ReplaceAllString(s, " ") from src/tracer.go, whose
pattern is [ \n\t]{2,}: only maximal runs of length at least two are replaced
by a single space; an isolated whitespace character is left unchanged.  The
flag records whether the scan is inside a run of length at least two that is
being replaced. -/
def repAux : Bool → List Char → List Char
  | _, [] => []
  | inRun, [c] =>
    if isWSGo c then (if inRun then [' '] else [c]) else [c]
  | inRun, a :: b :: cs =>
    if isWSGo a then
      if isWSGo b then repAux true (b :: cs)
      else (if inRun then ' ' else a) :: repAux false (b :: cs)
    else a :: repAux false (b :: cs)

/-- The whitespace normalizer of src/tracer.go. -/
def rep (s : List Char) : List Char :=
  repAux false s

/-- Index (in the given list) of the first occurrence of the two-character
closing sequence of a tag comment, star followed by slash. -/
def firstClose : List Char → Option Nat
  | [] => none
  | [_] => none
  | a :: b :: cs =>
    if a == '*' && b == '/' then some 0
    else (firstClose (b :: cs)).map (· + 1)

/-- Whether the closing sequence star-slash occurs anywhere in the list. -/
def hasClose : List Char → Bool
  | [] => false
  | [_] => false
  | a :: b :: cs => (a == '*' && b == '/') || hasClose (b :: cs)

/-- Whether the list contains a complete tag comment: an opening slash-star
followed (strictly after it) by a closing star-slash. -/
def hasTagComment : List Char → Bool
  | [] => false
  | [_] => false
  | a :: b :: cs => (a == '/' && b == '*' && hasClose cs) || hasTagComment (b :: cs)

/-- Space characters trimmed from both ends of a list, matching the literal
space repetitions that surround the lazy capture group of regexTagComment. -/
def trimSpaces (l : List Char) : List Char :=
  ((l.dropWhile (· == ' ')).reverse.dropWhile (· == ' ')).reverse

/-- Transcription of regexTagComment.FindStringSubmatchIndex for the pattern
of part_001, an opening slash-star, greedy spaces, a lazy dot-star capture,
greedy spaces and the closing star-slash.  Matching is leftmost; at a given
opening position the match ends at the first closing sequence; the capture is
the enclosed segment with surrounding spaces trimmed; the dot of the capture
cannot cross a newline, so an enclosed newline forbids a match at that
position.  The result is the end position of the whole match (exclusive) and
the captured tag, or none when no match exists. -/
def findTag : List Char → Option (Nat × List Char)
  | [] => none
  | [_] => none
  | a :: b :: cs =>
    if a == '/' && b == '*' then
      match firstClose cs with
      | some j =>
        if (cs.take j).contains '\n' then (findTag (b :: cs)).map (fun p => (p.1 + 1, p.2))
        else some (2 + j + 2, trimSpaces (cs.take j))
      | none => (findTag (b :: cs)).map (fun p => (p.1 + 1, p.2))
    else (findTag (b :: cs)).map (fun p => (p.1 + 1, p.2))

/-- Tag extraction and truncation step of part_001's PostFunc: when the tag
regex matches the (already normalized) query, the tag is capture group two and
the query is cut at the end of the whole match; otherwise the tag is empty and
the query is kept whole. -/
def extractTagQuery (q : List Char) : List Char × List Char :=
  match findTag q with
  | some (e, t) => (t, q.take e)
  | none => ([], q)

/-- Tab-separated, newline-terminated record in the shape of the Fprintf
format string of part_000/part_001, with four fields. -/
def formatRecord (startTime timeDelta : Int) (tag text : List Char) : List Char :=
  (toString startTime).data ++ '\t' :: (toString timeDelta).data
    ++ '\t' :: tag ++ '\t' :: text ++ ['\n']

/-- Sql-log line built by part_001's PostFunc for a call that is actually
logged: normalize, extract the tag, truncate, format. -/
def sqlLogLine (startTime timeDelta : Int) (queryString : List Char) : List Char :=
  let query := regexCutSpace queryString
  formatRecord startTime timeDelta (extractTagQuery query).1 (extractTagQuery query).2

theorem collapseWS_nonWS {c : Char} (h : isWS c = false) (b : Bool) (cs : List Char) :
    collapseWS b (c :: cs) = c :: collapseWS false cs := by
  simp [collapseWS, h]

theorem collapseWS_ws {c : Char} (h : isWS c = true) (cs : List Char) :
    collapseWS false (c :: cs) = ' ' :: collapseWS true cs := by
  simp [collapseWS, h]

theorem collapseWS_ws_true {c : Char} (h : isWS c = true) (cs : List Char) :
    collapseWS true (c :: cs) = collapseWS true cs := by
  simp [collapseWS, h]

/-- The scan transcription of the regexCutSpace replace-all agrees with the
claim's single-space-per-maximal-run scan. -/
theorem regexCutSpace_eq_collapseWS : ∀ s : List Char, regexCutSpace s = collapseWS false s := by
  intro s
  induction s using regexCutSpace.induct with
  | case1 => rfl
  | case2 c h =>
    simp [regexCutSpace, collapseWS, h]
  | case3 c h =>
    simp only [Bool.not_eq_true] at h
    simp [regexCutSpace, collapseWS, h]
  | case4 a b cs ha hb ih =>
    rw [regexCutSpace]
    simp only [ha, hb, if_true]
    rw [ih, collapseWS_ws ha, collapseWS_ws hb, collapseWS_ws_true hb]
  | case5 a b cs ha hb ih =>
    simp only [Bool.not_eq_true] at hb
    rw [regexCutSpace]
    simp only [ha, hb, if_true, Bool.false_eq_true, if_false]
    rw [ih, collapseWS_ws ha, collapseWS_nonWS hb, collapseWS_nonWS hb]
  | case6 a b cs ha ih =>
    simp only [Bool.not_eq_true] at ha
    rw [regexCutSpace]
    simp only [ha, Bool.false_eq_true, if_false]
    rw [ih, collapseWS_nonWS ha]

/-- The single-scan normalizer is idempotent, whatever the starting flag. -/
theorem collapseWS_idem : ∀ (s : List Char) (b : Bool),
    collapseWS b (collapseWS b s) = collapseWS b s := by
  intro s
  induction s with
  | nil => intro b; rfl
  | cons c cs ih =>
    intro b
    by_cases h : isWS c = true
    · cases b with
      | false =>
        rw [collapseWS_ws h, collapseWS_ws (by decide : isWS ' ' = true)]
        rw [ih true]
      | true =>
        rw [collapseWS_ws_true h, ih true]
    · simp at h
      rw [collapseWS_nonWS h, collapseWS_nonWS h, ih false]

theorem hasClose_cons_of_mem {c : Char} {cs : List Char} (h : hasClose cs = true) :
    hasClose (c :: cs) = true := by
  cases cs with
  | nil => simp [hasClose] at h
  | cons d ds => rw [hasClose]; simp [h]

theorem hasClose_cons_of_ne {a : Char} (l : List Char) (h : (a == '*') = false) :
    hasClose (a :: l) = hasClose l := by
  cases l with
  | nil => simp [hasClose]
  | cons e es => rw [hasClose]; simp [h]

theorem hasTagComment_cons_of_mem {c : Char} {cs : List Char} (h : hasTagComment cs = true) :
    hasTagComment (c :: cs) = true := by
  cases cs with
  | nil => simp [hasTagComment] at h
  | cons d ds => rw [hasTagComment]; simp [h]

theorem hasTagComment_cons_of_ne {a : Char} (l : List Char) (h : (a == '/') = false) :
    hasTagComment (a :: l) = hasTagComment l := by
  cases l with
  | nil => simp [hasTagComment]
  | cons e es => rw [hasTagComment]; simp [h]

/-- When the collapsed form of a list starts with a given non-whitespace
character, the list itself starts with that character. -/
theorem collapseWS_false_cons {cs : List Char} {y : Char} {ys : List Char}
    (h : collapseWS false cs = y :: ys) (hy : isWS y = false) :
    ∃ ds, cs = y :: ds ∧ collapseWS false ds = ys := by
  cases cs with
  | nil => simp [collapseWS] at h
  | cons c cs' =>
    by_cases hc : isWS c = true
    · rw [collapseWS_ws hc] at h
      have : y = ' ' := (List.cons.injEq _ _ _ _ ▸ h).1.symm
      subst this
      simp [isWS] at hy
    · simp only [Bool.not_eq_true] at hc
      rw [collapseWS_nonWS hc] at h
      obtain ⟨h1, h2⟩ := List.cons.injEq _ _ _ _ ▸ h
      exact ⟨cs', by rw [h1], h2⟩

/-- Collapsing whitespace cannot create a star-slash closing sequence. -/
theorem hasClose_collapseWS : ∀ (s : List Char) (b : Bool),
    hasClose (collapseWS b s) = true → hasClose s = true := by
  intro s
  induction s with
  | nil => intro b h; simp [collapseWS, hasClose] at h
  | cons c cs ih =>
    intro b h
    by_cases hc : isWS c = true
    · cases b with
      | true =>
        rw [collapseWS_ws_true hc] at h
        exact hasClose_cons_of_mem (ih true h)
      | false =>
        rw [collapseWS_ws hc] at h
        rw [hasClose_cons_of_ne _ (by decide)] at h
        exact hasClose_cons_of_mem (ih true h)
    · simp only [Bool.not_eq_true] at hc
      rw [collapseWS_nonWS hc] at h
      by_cases hstar : (c == '*') = true
      · have hc' : c = '*' := by simpa using hstar
        subst hc'
        cases hX : collapseWS false cs with
        | nil => rw [hX] at h; simp [hasClose] at h
        | cons e es =>
          rw [hX, hasClose] at h
          rcases Bool.or_eq_true_iff.mp h with h1 | h1
          · have he : e = '/' := by
              have := Bool.and_eq_true_iff.mp h1
              simpa using this.2
            subst he
            obtain ⟨ds, hds, _⟩ := collapseWS_false_cons hX (by decide)
            rw [hds, hasClose]
            simp
          · exact hasClose_cons_of_mem (ih false (hX ▸ h1))
      · simp only [Bool.not_eq_true] at hstar
        rw [hasClose_cons_of_ne _ hstar] at h
        exact hasClose_cons_of_mem (ih false h)

/-- Collapsing whitespace cannot create a tag comment. -/
theorem hasTagComment_collapseWS : ∀ (s : List Char) (b : Bool),
    hasTagComment (collapseWS b s) = true → hasTagComment s = true := by
  intro s
  induction s with
  | nil => intro b h; simp [collapseWS, hasTagComment] at h
  | cons c cs ih =>
    intro b h
    by_cases hc : isWS c = true
    · cases b with
      | true =>
        rw [collapseWS_ws_true hc] at h
        exact hasTagComment_cons_of_mem (ih true h)
      | false =>
        rw [collapseWS_ws hc] at h
        rw [hasTagComment_cons_of_ne _ (by decide)] at h
        exact hasTagComment_cons_of_mem (ih true h)
    · simp only [Bool.not_eq_true] at hc
      rw [collapseWS_nonWS hc] at h
      by_cases hslash : (c == '/') = true
      · have hc' : c = '/' := by simpa using hslash
        subst hc'
        cases hX : collapseWS false cs with
        | nil => rw [hX] at h; simp [hasTagComment] at h
        | cons e es =>
          rw [hX, hasTagComment] at h
          rcases Bool.or_eq_true_iff.mp h with h1 | h1
          · obtain ⟨h2, h3⟩ := Bool.and_eq_true_iff.mp h1
            obtain ⟨h4, he⟩ := Bool.and_eq_true_iff.mp h2
            have he' : e = '*' := by simpa using he
            subst he'
            obtain ⟨ds, hds, hes⟩ := collapseWS_false_cons hX (by decide)
            rw [hds, hasTagComment]
            have : hasClose ds = true := hasClose_collapseWS ds false (hes ▸ h3)
            simp [this]
          · exact hasTagComment_cons_of_mem (ih false (hX ▸ h1))
      · simp only [Bool.not_eq_true] at hslash
        rw [hasTagComment_cons_of_ne _ hslash] at h
        exact hasTagComment_cons_of_mem (ih false h)

theorem firstClose_eq_none {s : List Char} (h : hasClose s = false) :
    firstClose s = none := by
  induction s using firstClose.induct with
  | case1 => rfl
  | case2 => rfl
  | case3 a b cs hab => rw [hasClose] at h; simp [hab] at h
  | case4 a b cs hab ih =>
    rw [hasClose] at h
    simp only [Bool.or_eq_false_iff] at h
    rw [firstClose]
    simp only [hab, Bool.false_eq_true, if_false]
    rw [ih h.2]
    rfl

/-- A list with no complete tag comment yields no regex match. -/
theorem findTag_eq_none : ∀ {s : List Char}, hasTagComment s = false → findTag s = none := by
  intro s
  induction s using findTag.induct with
  | case1 => intro _; rfl
  | case2 => intro _; rfl
  | case3 a b cs hab j hj hnl ih =>
    intro h
    rw [hasTagComment] at h
    simp only [Bool.or_eq_false_iff, Bool.and_eq_false_iff] at h
    rcases h.1 with h1 | h1
    · rcases h1 with h2 | h2 <;> simp [Bool.and_eq_true_iff.mp hab] at h2
    · rw [firstClose_eq_none h1] at hj
      exact absurd hj (by simp)
  | case4 a b cs hab j hj hnl =>
    intro h
    rw [hasTagComment] at h
    simp only [Bool.or_eq_false_iff, Bool.and_eq_false_iff] at h
    rcases h.1 with h1 | h1
    · rcases h1 with h2 | h2 <;> simp [Bool.and_eq_true_iff.mp hab] at h2
    · rw [firstClose_eq_none h1] at hj
      exact absurd hj (by simp)
  | case5 a b cs hab hj ih =>
    intro h
    rw [hasTagComment] at h
    simp only [Bool.or_eq_false_iff] at h
    rw [findTag]
    simp only [hab, if_true, hj]
    rw [ih h.2]
    rfl
  | case6 a b cs hab ih =>
    intro h
    rw [hasTagComment] at h
    simp only [Bool.or_eq_false_iff] at h
    rw [findTag]
    simp only [Bool.not_eq_true] at hab
    simp only [hab, Bool.false_eq_true, if_false]
    rw [ih h.2]
    rfl

/-- Value of Go interface type, as delivered through the per-call hook
context.  The before-hooks of all variants store an int64 timestamp. -/
inductive GoValue where
  | int64 (v : Int)
  | otherVal
deriving DecidableEq

/-- PreFunc of part_000 and part_001: returns the current nanosecond
timestamp as the per-call context, and a nil error. -/
def PreFunc (nowNano : Int) : GoValue × Option Unit :=
  (GoValue.int64 nowNano, none)

/-- Modelled from the spec: the driver call mechanism (the external
go-sql-proxy library, outside this repository) delivers the context value
returned by the before-hook unchanged to the matching after-hook of the same
logical call. -/
def deliveredCtx (preNow : Int) : GoValue :=
  (PreFunc preNow).1

namespace Part001

/-- Snapshot of the package-level mutable state of part_001, together with
the operating-system facts needed to observe its effects: the set of open
file handles (os.Create returns a fresh handle), whether the profiler is
running, and a counter supplying fresh handles. -/
structure GoState where
  TraceID : List Char
  sqlLogFile : Option Nat
  perfomanceLogFile : Option Nat
  webrouteLogFile : Option Nat
  profilerHandle : Option Nat
  openFiles : List Nat
  profilerRunning : Bool
  nextHandle : Nat
deriving DecidableEq

/-- External calls performed by the lifecycle operations. -/
inductive Action where
  | profilerStart (h : Nat)
  | profilerStop (h : Nat)
  | createFile (h : Nat)
  | closeFile (h : Nat)
deriving DecidableEq

/-- Effect on the set of open handles of the guarded Close call on one file
variable; Close on an already closed handle removes nothing. -/
def closeOpt (f : Option Nat) (handles : List Nat) : List Nat :=
  match f with
  | some h => handles.erase h
  | none => handles

/-- Close calls issued for one file variable. -/
def closeActs : Option Nat → List Action
  | some h => [Action.closeFile h]
  | none => []

/-- Profiler-stop calls issued for the profiler variable. -/
def stopActs : Option Nat → List Action
  | some h => [Action.profilerStop h]
  | none => []

/-- Transcription of Stop from part_001 (lines 166 to 180): clear TraceID if
set, call Stop on the profiler handle if set, call Close on the sql and
performance log files if set.  The webroute log file is not touched by the
source.  The second component records the external calls performed. -/
def Stop (s : GoState) : GoState × List Action :=
  let s1 := if s.TraceID = [] then s else { s with TraceID := [] }
  let s2 := if s1.profilerHandle.isSome then { s1 with profilerRunning := false } else s1
  let s3 := { s2 with openFiles := closeOpt s2.sqlLogFile s2.openFiles }
  let s4 := { s3 with openFiles := closeOpt s3.perfomanceLogFile s3.openFiles }
  (s4, stopActs s.profilerHandle ++ closeActs s.sqlLogFile ++ closeActs s.perfomanceLogFile)

/-- Transcription of Start from part_001 (lines 127 to 163) on the success
path of os.MkdirAll, profile.Start and os.Create, each creation returning a
fresh handle: implicit Stop when a session is open, set TraceID to the newly
formatted (always non-empty) identifier, start the profiler, then create the
sql, performance and webroute log files in that order. -/
def Start (s : GoState) (newID : List Char) : GoState × List Action :=
  let r0 := if s.TraceID = [] then (s, ([] : List Action)) else Stop s
  let s1 := { r0.1 with TraceID := newID }
  let p := s1.nextHandle
  let s2 := { s1 with profilerHandle := some p, profilerRunning := true, nextHandle := p + 1 }
  let s3 := { s2 with sqlLogFile := some s2.nextHandle,
                      openFiles := s2.nextHandle :: s2.openFiles,
                      nextHandle := s2.nextHandle + 1 }
  let s4 := { s3 with perfomanceLogFile := some s3.nextHandle,
                      openFiles := s3.nextHandle :: s3.openFiles,
                      nextHandle := s3.nextHandle + 1 }
  let s5 := { s4 with webrouteLogFile := some s4.nextHandle,
                      openFiles := s4.nextHandle :: s4.openFiles,
                      nextHandle := s4.nextHandle + 1 }
  (s5, r0.2 ++ [Action.profilerStart p, Action.createFile (p + 1),
                Action.createFile (p + 2), Action.createFile (p + 3)])

/-- State at package initialization: empty TraceID, nil file variables, no
open handles, profiler not running. -/
def initState : GoState :=
  { TraceID := [], sqlLogFile := none, perfomanceLogFile := none,
    webrouteLogFile := none, profilerHandle := none, openFiles := [],
    profilerRunning := false, nextHandle := 0 }

/-- Whether the sql log variable refers to a file that is still open. -/
def sqlStreamOpen (s : GoState) : Bool :=
  match s.sqlLogFile with
  | some h => decide (h ∈ s.openFiles)
  | none => false

/-- Whether the performance log variable refers to a file that is still
open. -/
def perfStreamOpen (s : GoState) : Bool :=
  match s.perfomanceLogFile with
  | some h => decide (h ∈ s.openFiles)
  | none => false

/-- Transcription of PostFunc from part_001 (lines 88 to 103).  The outer
condition is the source's nil-check on sqlLogFile conjoined with the
driver.ErrSkip guard; the type assertion of the context to int64 sits inside
it, and a failed assertion (a Go panic) is modelled as none.  On the
non-panicking path the first component carries the bytes that reach the sql
log: none when the handle is no longer open, in which case the Fprintf error
is ignored and nothing is appended.  The second component is the returned
error value, always nil. -/
def PostFunc (s : GoState) (errIsSkip : Bool) (nowNano : Int) (ctx : GoValue)
    (queryString : List Char) : Option (Option (List Char) × Option Unit) :=
  if s.sqlLogFile.isSome && !errIsSkip then
    match ctx with
    | GoValue.int64 startTime =>
      some (if sqlStreamOpen s then
              some (sqlLogLine startTime (nowNano - startTime) queryString)
            else none, none)
    | GoValue.otherVal => none
  else some (none, none)

/-- Whether an after-hook executing against state s appends a record to the
sql log. -/
def recordAppended (s : GoState) (errIsSkip : Bool) (nowNano startTime : Int)
    (q : List Char) : Bool :=
  match PostFunc s errIsSkip nowNano (GoValue.int64 startTime) q with
  | some (some _, _) => true
  | _ => false

/-- The claim's notion of a Running session: session started and sql stream
open. -/
def sessionRunning (s : GoState) : Bool :=
  !s.TraceID.isEmpty && sqlStreamOpen s

/-- PerfHandle of part_001, including the captured target stream toFile. -/
structure PerfHandle where
  startTime : Int
  tag : List Char
  text : List Char
  toFile : Option Nat
deriving DecidableEq

/-- Measure of part_001: captures the clock and a snapshot of the global
performance stream variable. -/
def Measure (s : GoState) (nowNano : Int) (tag text : List Char) : PerfHandle :=
  { startTime := nowNano, tag := tag, text := text, toFile := s.perfomanceLogFile }

/-- WebRouteMeasure of part_001: captures the clock and a snapshot of the
global webroute stream variable. -/
def WebRouteMeasure (s : GoState) (nowNano : Int) (tag text : List Char) : PerfHandle :=
  { startTime := nowNano, tag := tag, text := text, toFile := s.webrouteLogFile }

/-- End of part_001 (lines 41 to 46): when a stream was captured at creation,
the record is written to that captured handle; no global state is consulted.
The result pairs the targeted handle with the written record. -/
def PerfHandle.End (p : PerfHandle) (nowNano : Int) : Option (Nat × List Char) :=
  match p.toFile with
  | some h => some (h, formatRecord p.startTime (nowNano - p.startTime) p.tag p.text)
  | none => none

/-- States reachable from package initialization through the lifecycle
operations; Start always receives the non-empty formatted timestamp. -/
inductive Reachable : GoState → Prop where
  | init : Reachable initState
  | start (s : GoState) (newID : List Char) (hID : newID ≠ []) :
      Reachable s → Reachable (Start s newID).1
  | stop (s : GoState) : Reachable s → Reachable (Stop s).1

/-- Structural invariant of reachable states: handles are unique and below
the counter, and the observable stream and profiler state is aligned with
whether a session is running. -/
structure Inv (s : GoState) : Prop where
  nodup : s.openFiles.Nodup
  bound : ∀ h ∈ s.openFiles, h < s.nextHandle
  sqlBound : ∀ h, s.sqlLogFile = some h → h < s.nextHandle
  perfBound : ∀ h, s.perfomanceLogFile = some h → h < s.nextHandle
  phase : (s.TraceID ≠ [] ∧ sqlStreamOpen s = true ∧ perfStreamOpen s = true
            ∧ s.profilerRunning = true ∧ s.profilerHandle.isSome = true)
        ∨ (s.TraceID = [] ∧ sqlStreamOpen s = false ∧ perfStreamOpen s = false
            ∧ s.profilerRunning = false)

end Part001

namespace Part001

theorem Stop_fst (s : GoState) :
    (Stop s).1 =
      { s with
          TraceID := [],
          profilerRunning := (if s.profilerHandle.isSome then false else s.profilerRunning),
          openFiles := (closeOpt s.perfomanceLogFile (closeOpt s.sqlLogFile s.openFiles)) } := by
  cases s
  simp only [Stop]
  split <;> split <;> simp_all

theorem Stop_snd (s : GoState) :
    (Stop s).2 = stopActs s.profilerHandle ++ closeActs s.sqlLogFile
                   ++ closeActs s.perfomanceLogFile := by
  rfl

theorem Start_fst_of_idle (s : GoState) (newID : List Char) (h : s.TraceID = []) :
    (Start s newID).1 =
      { TraceID := newID,
        sqlLogFile := some (s.nextHandle + 1),
        perfomanceLogFile := some (s.nextHandle + 1 + 1),
        webrouteLogFile := some (s.nextHandle + 1 + 1 + 1),
        profilerHandle := some s.nextHandle,
        openFiles := (s.nextHandle + 1 + 1 + 1) :: (s.nextHandle + 1 + 1)
                       :: (s.nextHandle + 1) :: s.openFiles,
        profilerRunning := true,
        nextHandle := s.nextHandle + 1 + 1 + 1 + 1 } := by
  simp only [Start, h, if_true]

theorem Start_fst_of_running (s : GoState) (newID : List Char) (h : ¬ s.TraceID = []) :
    (Start s newID).1 =
      { TraceID := newID,
        sqlLogFile := some ((Stop s).1.nextHandle + 1),
        perfomanceLogFile := some ((Stop s).1.nextHandle + 1 + 1),
        webrouteLogFile := some ((Stop s).1.nextHandle + 1 + 1 + 1),
        profilerHandle := some (Stop s).1.nextHandle,
        openFiles := ((Stop s).1.nextHandle + 1 + 1 + 1) :: ((Stop s).1.nextHandle + 1 + 1)
                       :: ((Stop s).1.nextHandle + 1) :: (Stop s).1.openFiles,
        profilerRunning := true,
        nextHandle := (Stop s).1.nextHandle + 1 + 1 + 1 + 1 } := by
  simp only [Start, h, if_false]

theorem mem_closeOpt {f : Option Nat} {l : List Nat} {x : Nat}
    (h : x ∈ closeOpt f l) : x ∈ l := by
  cases f with
  | none => exact h
  | some y => exact List.mem_of_mem_erase h

theorem nodup_closeOpt {f : Option Nat} {l : List Nat} (h : l.Nodup) :
    (closeOpt f l).Nodup := by
  cases f with
  | none => exact h
  | some y => exact h.erase y

theorem sqlStreamOpen_stop (s : GoState) (hnd : s.openFiles.Nodup) :
    sqlStreamOpen (Stop s).1 = false := by
  rw [Stop_fst]
  cases hsql : s.sqlLogFile with
  | none => simp [sqlStreamOpen, hsql]
  | some h =>
    simp only [sqlStreamOpen, hsql, decide_eq_false_iff_not]
    intro hm
    have hm2 : h ∈ s.openFiles.erase h := by
      have := mem_closeOpt (f := s.perfomanceLogFile) hm
      simpa [closeOpt, hsql] using this
    exact absurd (hnd.mem_erase_iff.mp hm2).1 (by simp)

theorem perfStreamOpen_stop (s : GoState) (hnd : s.openFiles.Nodup) :
    perfStreamOpen (Stop s).1 = false := by
  rw [Stop_fst]
  cases hperf : s.perfomanceLogFile with
  | none => simp [perfStreamOpen, hperf]
  | some h =>
    simp only [perfStreamOpen, hperf, decide_eq_false_iff_not]
    intro hm
    have hnd2 : (closeOpt s.sqlLogFile s.openFiles).Nodup := nodup_closeOpt hnd
    have hm2 : h ∈ (closeOpt s.sqlLogFile s.openFiles).erase h := by
      simpa [closeOpt, hperf] using hm
    exact absurd (hnd2.mem_erase_iff.mp hm2).1 (by simp)

theorem inv_init : Inv initState := by
  refine ⟨?_, ?_, ?_, ?_, ?_⟩ <;>
    simp [initState, sqlStreamOpen, perfStreamOpen]

theorem inv_stop {s : GoState} (hs : Inv s) : Inv (Stop s).1 := by
  obtain ⟨hnd, hbd, hsb, hpb, hph⟩ := hs
  refine ⟨?_, ?_, ?_, ?_, ?_⟩
  · rw [Stop_fst]
    exact nodup_closeOpt (nodup_closeOpt hnd)
  · rw [Stop_fst]
    intro h hm
    exact hbd h (mem_closeOpt (mem_closeOpt hm))
  · rw [Stop_fst]
    intro h hm
    exact hsb h hm
  · rw [Stop_fst]
    intro h hm
    exact hpb h hm
  · right
    refine ⟨?_, sqlStreamOpen_stop s hnd, perfStreamOpen_stop s hnd, ?_⟩
    · rw [Stop_fst]
    · rw [Stop_fst]
      rcases hph with hrun | hidle
      · simp [hrun.2.2.2.2]
      · simp [hidle.2.2.2]

theorem inv_start_core (b : GoState) (hb : Inv b) (newID : List Char) (hID : newID ≠ []) :
    Inv { TraceID := newID,
          sqlLogFile := some (b.nextHandle + 1),
          perfomanceLogFile := some (b.nextHandle + 1 + 1),
          webrouteLogFile := some (b.nextHandle + 1 + 1 + 1),
          profilerHandle := some b.nextHandle,
          openFiles := (b.nextHandle + 1 + 1 + 1) :: (b.nextHandle + 1 + 1)
                         :: (b.nextHandle + 1) :: b.openFiles,
          profilerRunning := true,
          nextHandle := b.nextHandle + 1 + 1 + 1 + 1 } := by
  obtain ⟨hnd, hbd, hsb, hpb, hph⟩ := hb
  refine ⟨?_, ?_, ?_, ?_, ?_⟩
  · dsimp only
    refine List.nodup_cons.mpr ⟨?_, List.nodup_cons.mpr ⟨?_, List.nodup_cons.mpr ⟨?_, hnd⟩⟩⟩
    · intro hm
      simp only [List.mem_cons] at hm
      rcases hm with hm | hm | hm
      · omega
      · omega
      · exact absurd (hbd _ hm) (by omega)
    · intro hm
      simp only [List.mem_cons] at hm
      rcases hm with hm | hm
      · omega
      · exact absurd (hbd _ hm) (by omega)
    · intro hm
      exact absurd (hbd _ hm) (by omega)
  · dsimp only
    intro h hm
    simp only [List.mem_cons] at hm
    rcases hm with hm | hm | hm | hm
    · omega
    · omega
    · omega
    · exact lt_trans (hbd _ hm) (by omega)
  · dsimp only
    intro h hm
    simp only [Option.some.injEq] at hm
    omega
  · dsimp only
    intro h hm
    simp only [Option.some.injEq] at hm
    omega
  · left
    refine ⟨hID, ?_, ?_, rfl, rfl⟩
    · simp [sqlStreamOpen, List.mem_cons]
    · simp [perfStreamOpen, List.mem_cons]

theorem inv_start {s : GoState} (hs : Inv s) (newID : List Char) (hID : newID ≠ []) :
    Inv (Start s newID).1 := by
  by_cases hidle : s.TraceID = []
  · rw [Start_fst_of_idle s newID hidle]
    exact inv_start_core s hs newID hID
  · rw [Start_fst_of_running s newID hidle]
    exact inv_start_core (Stop s).1 (inv_stop hs) newID hID

/-- Every reachable state satisfies the invariant. -/
theorem reachable_inv {s : GoState} (h : Reachable s) : Inv s := by
  induction h with
  | init => exact inv_init
  | start s newID hID _ ih => exact inv_start ih newID hID
  | stop s _ ih => exact inv_stop ih

theorem recordAppended_eq {s : GoState} (hinv : Inv s) (skip : Bool) (now start : Int)
    (q : List Char) :
    recordAppended s skip now start q = (sessionRunning s && !skip) := by
  cases skip with
  | true => simp [recordAppended, PostFunc]
  | false =>
    rcases hinv.phase with ⟨hne, hsql, _, _, _⟩ | ⟨hid, hsql, _, _⟩
    · have hEmpty : s.TraceID.isEmpty = false := by
        cases hT : s.TraceID with
        | nil => exact absurd hT hne
        | cons x xs => rfl
      cases hf : s.sqlLogFile with
      | none => simp [sqlStreamOpen, hf] at hsql
      | some h =>
        simp [recordAppended, PostFunc, hf, hsql, sessionRunning, hEmpty]
    · cases hf : s.sqlLogFile with
      | none => simp [recordAppended, PostFunc, hf, sessionRunning, hid]
      | some h => simp [recordAppended, PostFunc, hf, hsql, sessionRunning, hid]

theorem sessionRunning_stop (s : GoState) : sessionRunning (Stop s).1 = false := by
  simp [sessionRunning, Stop_fst]

theorem closeOpt_eq_self {f : Option Nat} {l : List Nat}
    (h : ∀ x, f = some x → x ∉ l) : closeOpt f l = l := by
  cases f with
  | none => rfl
  | some x => exact List.erase_of_not_mem (h x rfl)

theorem not_mem_of_sqlStreamOpen_false {s : GoState} (h : sqlStreamOpen s = false) :
    ∀ x, s.sqlLogFile = some x → x ∉ s.openFiles := by
  intro x hx
  simp only [sqlStreamOpen, hx, decide_eq_false_iff_not] at h
  exact h

theorem not_mem_of_perfStreamOpen_false {s : GoState} (h : perfStreamOpen s = false) :
    ∀ x, s.perfomanceLogFile = some x → x ∉ s.openFiles := by
  intro x hx
  simp only [perfStreamOpen, hx, decide_eq_false_iff_not] at h
  exact h

/-- On an idle reachable state, Stop leaves every state variable unchanged:
the id is already empty, the profiler is already stopped, and the guarded
Close calls hit handles that are no longer open. -/
theorem stop_idle_fixpoint {s : GoState} (hinv : Inv s) (hid : s.TraceID = []) :
    (Stop s).1 = s := by
  rcases hinv.phase with ⟨hne, _⟩ | ⟨_, hsql, hperf, hpr⟩
  · exact absurd hid hne
  have hOpen : closeOpt s.perfomanceLogFile (closeOpt s.sqlLogFile s.openFiles)
      = s.openFiles := by
    rw [closeOpt_eq_self (not_mem_of_sqlStreamOpen_false hsql)]
    exact closeOpt_eq_self (not_mem_of_perfStreamOpen_false hperf)
  rw [Stop_fst, hOpen]
  cases s with
  | mk tid sql perf web prof opened run next =>
    simp only at hid hpr
    subst hid
    subst hpr
    simp

/-- Whether an external call creates a file. -/
def Action.isCreate : Action → Bool
  | Action.createFile _ => true
  | _ => false

/-- The list of external calls of Stop never contains a file creation. -/
theorem stop_no_create (s : GoState) :
    (Stop s).2.all (fun a => !a.isCreate) = true := by
  rw [Stop_snd]
  cases s.profilerHandle <;> cases s.sqlLogFile <;> cases s.perfomanceLogFile <;>
    simp [stopActs, closeActs, Action.isCreate]

/-- When the profiler variable is set, Stop invokes its Stop method. -/
theorem stop_profiler_called {s : GoState} {h : Nat} (hf : s.profilerHandle = some h) :
    Action.profilerStop h ∈ (Stop s).2 := by
  rw [Stop_snd, hf]
  simp [stopActs]

/-- Whether Stop issues the profiler-stop call for the currently stored
profiler handle (vacuously true when no handle is stored). -/
def stopCallsProfiler (s : GoState) : Bool :=
  match s.profilerHandle with
  | some h => decide (Action.profilerStop h ∈ (Stop s).2)
  | none => true

theorem stopCallsProfiler_true (s : GoState) : stopCallsProfiler s = true := by
  cases hph : s.profilerHandle with
  | none => simp [stopCallsProfiler, hph]
  | some h =>
    simp only [stopCallsProfiler, hph, decide_eq_true_eq]
    exact stop_profiler_called hph

end Part001

namespace Part000

/-- Sql-log line built by part_000's PostFunc (lines 84 to 91): the tag is
the capture group of its regexTagComment (the same pattern as part_001,
written with one capture group), and the query field is the full normalized
text; part_000 never truncates the query. -/
def sqlLogLine (startTime timeDelta : Int) (queryString : List Char) : List Char :=
  let query := regexCutSpace queryString
  let tag := match findTag query with
             | some (_, t) => t
             | none => []
  formatRecord startTime timeDelta tag query

/-- Transcription of PostFunc from part_000 (lines 80 to 94): the only guard
is the nil-check on sqlLogFile; there is no driver.ErrSkip check and the
error argument is ignored.  The int64 type assertion sits inside the guard
(none models a panic); the write persists exactly when the handle is still in
the open set. -/
def PostFunc (sqlLogFile : Option Nat) (openFiles : List Nat) (_errIsSkip : Bool)
    (nowNano : Int) (ctx : GoValue) (queryString : List Char) :
    Option (Option (List Char) × Option Unit) :=
  if sqlLogFile.isSome then
    match ctx with
    | GoValue.int64 startTime =>
      some ((match sqlLogFile with
             | some h =>
               if h ∈ openFiles then
                 some (sqlLogLine startTime (nowNano - startTime) queryString)
               else none
             | none => none), none)
    | GoValue.otherVal => none
  else some (none, none)

/-- PerfHandle of part_000 (lines 31 to 35): start time, tag and text only;
no stream is captured at creation. -/
structure PerfHandle where
  startTime : Int
  tag : List Char
  text : List Char
deriving DecidableEq

/-- Measure of part_000 (lines 45 to 48): captures only the clock. -/
def Measure (nowNano : Int) (tag text : List Char) : PerfHandle :=
  { startTime := nowNano, tag := tag, text := text }

/-- End of part_000 (lines 37 to 43): consults the global perfomanceLogFile
variable as it stands at End time (the final argument); when the variable is
nil nothing is written. -/
def PerfHandle.End (p : PerfHandle) (nowNano : Int)
    (perfomanceLogFile : Option Nat) : Option (List Char) :=
  match perfomanceLogFile with
  | some _ => some (formatRecord p.startTime (nowNano - p.startTime) p.tag p.text)
  | none => none

end Part000

/-- Whether an after-hook result is a normal return (no panic) carrying a nil
error. -/
def noPanicNilErr : Option (Option (List Char) × Option Unit) → Bool
  | some (_, none) => true
  | _ => false

/-- Running state obtained by one Start from package initialization. -/
def runningDemo : Part001.GoState :=
  (Part001.Start Part001.initState "20060102-150405".data).1

/-- Idle state obtained by Start followed by Stop. -/
def stoppedDemo : Part001.GoState :=
  (Part001.Stop runningDemo).1

/-- C1, counterexample: at the claim's concrete input (normalized start 1000,
elapsed 1500000), part_001 truncates the logged query immediately AFTER the
tag comment, so the comment itself stays in the line; the line the claim
demands (comment dropped) is a different byte sequence. -/
theorem c1_counterexample :
    sqlLogLine 1000 1500000 "SELECT   *\nFROM users  /* list-users */ WHERE id = ?".data
      = "1000\t1500000\tlist-users\tSELECT * FROM users /* list-users */\n".data
    ∧ "1000\t1500000\tlist-users\tSELECT * FROM users /* list-users */\n".data
      ≠ "1000\t1500000\tlist-users\tSELECT * FROM users\n".data := by
  decide

/-- C1 amended: for that query with start timestamp 1000 and elapsed 1500000
ns, the after-hook of part_001, on a running session, appends exactly the
line with the trimmed tag and the query truncated to end immediately after
the tag comment (the comment included), whitespace runs collapsed. -/
theorem c1_amended_line :
    Part001.PostFunc runningDemo false 1501000 (GoValue.int64 1000)
        "SELECT   *\nFROM users  /* list-users */ WHERE id = ?".data
      = some (some "1000\t1500000\tlist-users\tSELECT * FROM users /* list-users */\n".data,
              none) := by
  decide

/-- C2, code bug: Stop of part_001 never closes the webroute log file, so a
second Start leaves the first session's webroute handle (handle 3) open while
the new session runs with its own webroute handle (handle 7); the previous
session is not fully closed, contradicting the no-leak invariant. -/
theorem c2_webroute_leak :
    runningDemo.webrouteLogFile = some 3
    ∧ Part001.Action.closeFile 3 ∉ (Part001.Stop runningDemo).2
    ∧ 3 ∈ (Part001.Start runningDemo "20060102-150406".data).1.openFiles
    ∧ (Part001.Start runningDemo "20060102-150406".data).1.webrouteLogFile = some 7 := by
  decide

/-- C3, counterexample: on a running session, an after-hook whose outcome is
driver.ErrSkip appends nothing, so "a record is appended if and only if the
session is Running" fails in the only-if-free direction at this input. -/
theorem c3_counterexample :
    Part001.sessionRunning runningDemo = true
    ∧ Part001.recordAppended runningDemo true 5 3 "SELECT 1".data = false := by
  decide

/-- C3 amended: on every reachable state, a Timing Record is appended exactly
when the session is Running at after-hook time AND the outcome is not
driver.ErrSkip; the state at before-hook time is irrelevant (it is not an
input of the after-hook decision), and after Stop no record is appended. -/
theorem c3_records_iff_running {s : Part001.GoState} (hr : Part001.Reachable s)
    (skip : Bool) (now start : Int) (q : List Char) :
    Part001.recordAppended s skip now start q = (Part001.sessionRunning s && !skip)
    ∧ Part001.recordAppended (Part001.Stop s).1 skip now start q = false := by
  have hinv := Part001.reachable_inv hr
  constructor
  · exact Part001.recordAppended_eq hinv skip now start q
  · rw [Part001.recordAppended_eq (Part001.inv_stop hinv) skip now start q]
    simp [Part001.sessionRunning_stop]

/-- C3 witness: the amended statement evaluated on the concrete reachable
running state. -/
theorem c3_witness :
    Part001.recordAppended runningDemo false 5 3 "SELECT 1".data
      = (Part001.sessionRunning runningDemo && !false)
    ∧ Part001.recordAppended (Part001.Stop runningDemo).1 false 5 3 "SELECT 1".data
      = false :=
  c3_records_iff_running
    (Part001.Reachable.start Part001.initState "20060102-150405".data (by decide)
      Part001.Reachable.init)
    false 5 3 "SELECT 1".data

/-- C4, counterexample: part_000's after-hook has no driver.ErrSkip guard, so
with an open sql stream a driver-declined call DOES write a Timing Record,
refuting the claim for that cited hook. -/
theorem c4_counterexample :
    Part000.PostFunc (some 0) [0] true 10 (GoValue.int64 3) "SELECT 1".data
      = some (some "3\t7\t\tSELECT 1\n".data, none) := by
  decide

/-- C4 amended: part_001's after-hook treats a driver.ErrSkip outcome as a
non-event (no record, nil error, no panic even for a non-int64 context,
whatever the session state); part_000's after-hook, lacking the guard, writes
a record whenever the sql stream is open and still returns a nil error. -/
theorem c4_amended_errskip (s : Part001.GoState) (ctx : GoValue) (now start : Int)
    (q : List Char) (h : Nat) (opened : List Nat) :
    Part001.PostFunc s true now ctx q = some (none, none)
    ∧ Part000.PostFunc (some h) (h :: opened) true now (GoValue.int64 start) q
      = some (some (Part000.sqlLogLine start (now - start) q), none) := by
  constructor
  · simp [Part001.PostFunc]
  · simp [Part000.PostFunc]

/-- C5, counterexample: the normalizer of src/tracer.go (pattern with
repetition at least two, class without carriage return) leaves a lone newline
between words unchanged, while the claim requires every whitespace run of
length at least one to become a single space; runs of carriage returns are
also untouched. -/
theorem c5_counterexample :
    rep "a\nb".data = "a\nb".data
    ∧ normalizeSpec "a\nb".data = "a b".data
    ∧ rep "a\nb".data ≠ normalizeSpec "a\nb".data
    ∧ rep ('a' :: '\r' :: '\r' :: 'b' :: []) = ('a' :: '\r' :: '\r' :: 'b' :: []) := by
  decide

/-- C5 amended: the regexCutSpace normalizer shared by part_000 and part_001
does satisfy the claim: every maximal run of space, carriage return, newline
or tab (length at least one) becomes exactly one space and no other character
changes; only the src/tracer.go variant differs. -/
theorem c5_amended_normalizer (s : List Char) : regexCutSpace s = normalizeSpec s :=
  regexCutSpace_eq_collapseWS s

/-- C6: for every query string with no complete tag comment, the extraction
step of part_001 yields an empty tag and leaves the normalized query whole,
and part_000's log line likewise carries an empty tag and the full normalized
query. -/
theorem c6_no_tag_full_query (Q : List Char) (startTime timeDelta : Int)
    (h : hasTagComment Q = false) :
    extractTagQuery (regexCutSpace Q) = ([], regexCutSpace Q)
    ∧ Part000.sqlLogLine startTime timeDelta Q
      = formatRecord startTime timeDelta [] (regexCutSpace Q) := by
  have h2 : hasTagComment (regexCutSpace Q) = false := by
    rw [regexCutSpace_eq_collapseWS]
    cases hB : hasTagComment (collapseWS false Q) with
    | false => rfl
    | true => exact absurd (hasTagComment_collapseWS Q false hB) (by simp [h])
  have h3 : findTag (regexCutSpace Q) = none := findTag_eq_none h2
  constructor
  · simp [extractTagQuery, h3]
  · simp [Part000.sqlLogLine, h3]

/-- C6 witness: the statement evaluated on a concrete tagless query. -/
theorem c6_witness :
    extractTagQuery (regexCutSpace "SELECT 1".data) = ([], regexCutSpace "SELECT 1".data)
    ∧ Part000.sqlLogLine 3 7 "SELECT 1".data
      = formatRecord 3 7 [] (regexCutSpace "SELECT 1".data) :=
  c6_no_tag_full_query "SELECT 1".data 3 7 (by decide)

/-- C7, counterexample: part_000's End consults the global performance stream
at End time, not a creation-time snapshot (its handle has no stream field at
all): the same handle, created while the stream variable was nil, is a no-op
or writes depending solely on the End-time value, refuting both the snapshot
and the End-time-irrelevance parts of the claim for that cited variant. -/
theorem c7_counterexample :
    Part000.PerfHandle.End (Part000.Measure 5 "db-warmup".data "cache fill".data) 47 none
      = none
    ∧ Part000.PerfHandle.End (Part000.Measure 5 "db-warmup".data "cache fill".data) 47
        (some 9)
      = some (formatRecord 5 42 "db-warmup".data "cache fill".data) := by
  decide

/-- C7 amended: in part_001, Measure and WebRouteMeasure capture the start
time and a snapshot of the respective stream variable; End writes the record
to the captured handle only (its signature takes no End-time state), and is a
no-op when the captured stream was unset; part_000's End instead reads the
global stream at End time. -/
theorem c7_amended_snapshot (s : Part001.GoState) (t now : Int) (tag text : List Char)
    (h : Nat) :
    (Part001.Measure s t tag text).toFile = s.perfomanceLogFile
    ∧ (Part001.WebRouteMeasure s t tag text).toFile = s.webrouteLogFile
    ∧ (Part001.Measure s t tag text).startTime = t
    ∧ Part001.PerfHandle.End { startTime := t, tag := tag, text := text, toFile := none } now
      = none
    ∧ Part001.PerfHandle.End { startTime := t, tag := tag, text := text, toFile := some h } now
      = some (h, formatRecord t (now - t) tag text) :=
  ⟨rfl, rfl, rfl, rfl, rfl⟩

/-- C8, counterexample: in the idle state reached by Start then Stop, calling
Stop again performs a profiler interaction and two Close calls (the handle
variables are never reset to nil), so Stop while Idle is not free of external
effects. -/
theorem c8_counterexample :
    stoppedDemo.TraceID = []
    ∧ (Part001.Stop stoppedDemo).2
      = [Part001.Action.profilerStop 0, Part001.Action.closeFile 1,
         Part001.Action.closeFile 2] := by
  decide

/-- C8 amended: on every reachable Idle state, Stop leaves every global state
variable unchanged and creates no file; in the initial Idle state it performs
no external call at all; but when the profiler variable is still set from an
earlier session, Stop invokes the profiler's Stop again (and Close on the sql
and performance handles), so it is not a complete no-op after a session. -/
theorem c8_stop_idle {s : Part001.GoState} (hr : Part001.Reachable s)
    (hid : s.TraceID = []) :
    (Part001.Stop s).1 = s
    ∧ (Part001.Stop Part001.initState).2 = []
    ∧ (Part001.Stop s).2.all (fun a => !a.isCreate) = true
    ∧ Part001.stopCallsProfiler s = true := by
  have hinv := Part001.reachable_inv hr
  exact ⟨Part001.stop_idle_fixpoint hinv hid, rfl, Part001.stop_no_create s,
         Part001.stopCallsProfiler_true s⟩

/-- C8 witness: the amended statement evaluated on the concrete idle state
reached by Start then Stop. -/
theorem c8_witness :
    (Part001.Stop stoppedDemo).1 = stoppedDemo
    ∧ (Part001.Stop Part001.initState).2 = []
    ∧ (Part001.Stop stoppedDemo).2.all (fun a => !a.isCreate) = true
    ∧ Part001.stopCallsProfiler stoppedDemo = true :=
  c8_stop_idle
    (Part001.Reachable.stop _
      (Part001.Reachable.start Part001.initState "20060102-150405".data (by decide)
        Part001.Reachable.init))
    (by decide)

/-- C9: normalization with part_001's regexCutSpace is idempotent. -/
theorem c9_normalize_idempotent (Q : List Char) :
    regexCutSpace (regexCutSpace Q) = regexCutSpace Q := by
  simp only [regexCutSpace_eq_collapseWS]
  exact collapseWS_idem Q false

/-- C10: the context delivered to the after-hook is exactly the int64
timestamp the before-hook returned, so the type assertion always succeeds (no
panic), and both hooks return a nil error, in part_001 as in part_000. -/
theorem c10_context_int64_safe (t now : Int) (s : Part001.GoState) (skip : Bool)
    (q : List Char) (f : Option Nat) (opened : List Nat) :
    (PreFunc t).2 = none
    ∧ deliveredCtx t = GoValue.int64 t
    ∧ noPanicNilErr (Part001.PostFunc s skip now (deliveredCtx t) q) = true
    ∧ noPanicNilErr (Part000.PostFunc f opened skip now (deliveredCtx t) q) = true := by
  refine ⟨rfl, rfl, ?_, ?_⟩
  · simp only [deliveredCtx, PreFunc, Part001.PostFunc]
    split
    · rfl
    · rfl
  · simp only [deliveredCtx, PreFunc, Part000.PostFunc]
    split
    · rfl
    · rfl
